import Mathlib

/-!
Shallow embedding of the `xbridge` validation subsystem
(`src/xbridge/validation/` and the `validate` CLI entry point in
`src/xbridge/__main__.py`) together with proofs about the frozen claims.

Conventions used throughout:
* Python strings are Lean `String`s; byte strings are `List Char` whose
  characters all have code points below 256 (one `Char` per byte).
* Python `dict`s are association lists; insertion overwrites an existing
  key in place and otherwise appends at the end, matching CPython's
  ordered-dict semantics.  Lookups return the first (unique) binding.
* Fallible Python code is embedded in `Except String` where the error
  string stands for the exception (`ValueError: ...`, `TypeError: ...`).
* A left brace that is literal text inside a string is written `\x7b`
  and a right brace `\x7d`.
-/

namespace Xbridge

/-- Severity levels, from `validation/_models.py` (`class Severity`). -/
inductive Severity where
  | ERROR
  | WARNING
  | INFO
deriving DecidableEq, Repr

/-- The `.value` string of a `Severity` member (`_models.py`). -/
def Severity.value : Severity → String
  | .ERROR => "ERROR"
  | .WARNING => "WARNING"
  | .INFO => "INFO"

/-- A validation rule loaded from `registry.json`, from
`validation/_models.py` (`class RuleDefinition`). -/
structure RuleDefinition where
  code : String
  message : String
  severity : Severity
  xml : Bool
  csv : Bool
  eba : Bool
  post_conversion : Bool
  eba_ref : Option String := none
  csv_severity : Option Severity := none
  csv_message : Option String := none
deriving DecidableEq, Repr

/-- `RuleDefinition.effective_severity` from `validation/_models.py`:
the csv override wins when `rule_set == "csv"` and it is set. -/
def RuleDefinition.effective_severity (r : RuleDefinition) (rule_set : String) : Severity :=
  if rule_set == "csv" then
    match r.csv_severity with
    | some s => s
    | none => r.severity
  else r.severity

/-- `RuleDefinition.effective_message` from `validation/_models.py`:
the csv override wins when `rule_set == "csv"` and it is set. -/
def RuleDefinition.effective_message (r : RuleDefinition) (rule_set : String) : String :=
  if rule_set == "csv" then
    match r.csv_message with
    | some m => m
    | none => r.message
  else r.message

/-- A single validation finding, from `validation/_models.py`
(`class ValidationResult`).  The optional context bag carries string
values (the only shape the embedded rules produce). -/
structure Finding where
  rule_id : String
  severity : Severity
  rule_set : String
  message : String
  location : String
  context : Option (List (String × String)) := none
deriving DecidableEq, Repr

/-- The dict produced by `ValidationResult.to_dict()` in
`validation/_models.py` (severity serialised via `.value`). -/
structure FindingDict where
  rule_id : String
  severity : String
  rule_set : String
  message : String
  location : String
  context : Option (List (String × String))
deriving DecidableEq, Repr

deriving instance DecidableEq for Except

/-- `ValidationResult.to_dict()` from `validation/_models.py`. -/
def Finding.to_dict (f : Finding) : FindingDict :=
  { rule_id := f.rule_id
    severity := f.severity.value
    rule_set := f.rule_set
    message := f.message
    location := f.location
    context := f.context }

/-! ## Rule selection (`validation/_engine.py`, `select_rules`) -/

/-- `select_rules` from `validation/_engine.py`: the loop with its four
`continue` guards, translated clause by clause. -/
def select_rules : List RuleDefinition → String → Bool → Bool → List RuleDefinition
  | [], _, _, _ => []
  | rule :: rest, rule_set, eba, post_conversion =>
    let tail := select_rules rest rule_set eba post_conversion
    if rule_set == "xml" && !rule.xml then tail
    else if rule_set == "csv" && !rule.csv then tail
    else if rule.eba && !eba then tail
    else if rule_set == "csv" && post_conversion && !rule.post_conversion then tail
    else rule :: tail

/-- The claim's selection predicate, as written in the spec: keep `r` iff
`(rule_set = xml ∧ r.xml) ∨ (rule_set = csv ∧ r.csv)`, excluding
`r.eba` rules when EBA mode is off, and excluding non-`post_conversion`
rules when `rule_set = csv` and post-conversion mode is on. -/
def claimKeepsRule (rule_set : String) (eba post_conversion : Bool) (r : RuleDefinition) : Bool :=
  ((rule_set == "xml" && r.xml) || (rule_set == "csv" && r.csv))
    && !(r.eba && !eba)
    && !(rule_set == "csv" && post_conversion && !r.post_conversion)

/-! ## Format detection (`validation/_engine.py`, `_detect_format`) -/

/-- Python `str.lower()`, character-wise (ASCII; the embedded byte
strings hold one character per byte). -/
def strLower (s : String) : String :=
  String.mk (s.toList.map Char.toLower)

/-- `_detect_zip_format` from `validation/_engine.py`.  The input ZIP is
given by its printed name and its content: `none` models a file that
raises `BadZipFile` on opening, `some entries` the archive's
`namelist()`.  Errors carry the raised `ValueError` message. -/
def detect_zip_format (zipName : String) (content : Option (List String)) :
    Except String String :=
  match content with
  | none => .error ("ValueError: " ++ ("Not a valid ZIP archive: " ++ zipName))
  | some entries =>
    if entries.any (fun e =>
        e == "reports/report.json" || e.endsWith "/reports/report.json") then
      .ok "csv"
    else
      let xbrl_files := entries.filter (fun e =>
        ((strLower e).endsWith ".xbrl" || (strLower e).endsWith ".xml") && !(e.contains '/'))
      if xbrl_files.length == 1 then .ok "xml"
      else if 1 < xbrl_files.length then
        .error ("ValueError: " ++ ("ZIP contains several XBRL files; expected exactly one: " ++ zipName))
      else
        .error ("ValueError: " ++
          ("ZIP does not contain a recognized XBRL instance or CSV report package: " ++ zipName))

/-- `_detect_format` from `validation/_engine.py`.  `suffix` is the
path's extension as `pathlib.Path.suffix` computes it. -/
def detect_format (suffix zipName : String) (content : Option (List String)) :
    Except String String :=
  let s := strLower suffix
  if s == ".xbrl" || s == ".xml" then .ok "xml"
  else if s == ".zip" then detect_zip_format zipName content
  else .error ("ValueError: " ++ ("Unsupported file extension: " ++ suffix))

/-- Holds when the embedded call raised a `ValueError` (a structural
error in the claim's sense). -/
def raisesValueError (r : Except String String) : Prop :=
  ∃ rest, r = Except.error ("ValueError: " ++ rest)

/-- Forgets the error message: `some rule_set` on success, `none` when a
`ValueError` is raised. -/
def formatOutcome : Except String String → Option String
  | .ok s => some s
  | .error _ => none

/-- The claim's format-detection function, written from the spec's case
analysis: `.xbrl`/`.xml` extension means `xml`; a `.zip` means `csv`
iff the archive contains `reports/report.json` at any depth, otherwise
`xml` iff the archive root holds exactly one `.xbrl`/`.xml` entry; every
other case (other extension, corrupt ZIP, zero or several root XBRL
entries without a report manifest) is a structural error (`none`). -/
def spec_detect_format (suffix : String) (content : Option (List String)) : Option String :=
  let s := strLower suffix
  if s = ".xbrl" ∨ s = ".xml" then some "xml"
  else if s = ".zip" then
    match content with
    | none => none
    | some entries =>
      if entries.any (fun e =>
          e == "reports/report.json" || e.endsWith "/reports/report.json") then
        some "csv"
      else if (entries.filter (fun e =>
          ((strLower e).endsWith ".xbrl" || (strLower e).endsWith ".xml")
            && !(e.contains '/'))).length = 1 then
        some "xml"
      else none
  else none

/-! ## The rule-execution loop (`validation/_engine.py`, `run_validation` step 7) -/

/-- The outcome of running one rule implementation on this run's fixed
`ValidationContext`: either the findings it appended, or the exception
it raised. -/
inductive RuleOutcome where
  | found (fs : List Finding)
  | raised (e : String)
deriving DecidableEq, Repr

/-- The per-rule loop of `run_validation` (`_engine.py` lines 243-263):
look up the implementation (`impl rule.code`, `none` models
`get_rule_impl` returning `None` — the rule is skipped), run it and
extend `all_findings`.  There is no try/except around `impl(ctx)`, so
an exception raised by an implementation propagates out of the loop,
discarding the findings accumulated so far. -/
def run_rules (impl : String → Option RuleOutcome) :
    List RuleDefinition → Except String (List Finding)
  | [] => .ok []
  | rule :: rest =>
    match impl rule.code with
    | none => run_rules impl rest
    | some (.found fs) => (run_rules impl rest).map (fun tail => fs ++ tail)
    | some (.raised e) => .error e

/-- A first selected rule for the exception-propagation run. -/
def cexRuleA : RuleDefinition :=
  { code := "XML-001", message := "File must be well-formed XML: \x7bdetail\x7d"
    severity := .ERROR, xml := true, csv := false, eba := false, post_conversion := false }

/-- A second selected rule, after the raising one. -/
def cexRuleB : RuleDefinition :=
  { code := "XML-002", message := "File must use utf-8 encoding: \x7bdetail\x7d"
    severity := .ERROR, xml := true, csv := false, eba := false, post_conversion := false }

/-- The finding the second rule's implementation would append. -/
def cexFindingB : Finding :=
  { rule_id := "XML-002", severity := .ERROR, rule_set := "xml"
    message := "File must use utf-8 encoding: declared iso-8859-1"
    location := "file.xbrl:1" }

/-- A WARNING finding used to exercise the warnings group. -/
def c10Finding : Finding :=
  { rule_id := "XML-066", severity := .WARNING, rule_set := "xml"
    message := "Context c1 is unused", location := "context:c1" }

/-- Implementation table for the exception-propagation run: the first
rule's implementation raises, the second would report a finding. -/
def cexImpl : String → Option RuleOutcome := fun code =>
  if code == "XML-001" then some (.raised "RuntimeError: boom")
  else if code == "XML-002" then some (.found [cexFindingB])
  else none

/-! ## Keyword binding of the `ValidationContext` constructor (C1)

`run_validation` (`_engine.py` lines 249-259) constructs the per-rule
context with nine keyword arguments, while `ValidationContext.__init__`
(`_context.py` lines 33-42) declares only seven parameters besides
`self` and no `**kwargs`. -/

/-- The keyword parameters accepted by `ValidationContext.__init__`,
in declaration order (`validation/_context.py`). -/
def validationContextInitParams : List String :=
  ["rule_set", "rule_definition", "file_path", "raw_bytes",
   "xml_instance", "csv_instance", "module"]

/-- The keyword arguments `run_validation` passes to
`ValidationContext(...)` (`validation/_engine.py`, step 7). -/
def runValidationCtxCallKwargs : List String :=
  ["rule_set", "rule_definition", "file_path", "raw_bytes",
   "xml_instance", "csv_instance", "module", "xml_root", "zip_path"]

/-- CPython keyword binding for a callable without `**kwargs`: passing a
keyword that is not among the declared parameters raises `TypeError`
(the first offending keyword in call order is reported).  Duplicate and
missing-required keywords are not needed here and are not modelled. -/
def pythonBindKwargs (params kwargs : List String) : Except String Unit :=
  match kwargs.find? (fun k => !(params.contains k)) with
  | some k => .error ("TypeError: __init__() got an unexpected keyword argument " ++ k)
  | none => .ok ()

/-! ## Message rendering (`validation/_context.py`, C9)

`add_finding` renders the rule's message template with
`template.format_map(_DefaultFormatDict(context))`.  The embedding
covers the template fragment the registry uses: literal text, `{{`/`}}`
escapes and simple `{name}` replacement fields.  Conversion (`!r`) and
format-spec (`:…`) syntax is outside the modelled fragment and is mapped
to a sentinel error. -/

/-- Literal left brace (`\x7b`). -/
def lbraceChar : Char := Char.ofNat 123

/-- Literal right brace (`\x7d`). -/
def rbraceChar : Char := Char.ofNat 125

/-- Field names in the modelled fragment: nonempty (an empty field is
Python auto-numbering, outside the fragment), no nested braces, no
conversion and no format spec. -/
def simpleField (f : List Char) : Bool :=
  !f.isEmpty && !(f.contains lbraceChar) && !(f.contains ':') && !(f.contains '!')

/-- `dict.get`-style lookup in a context bag. -/
def lookupCtx (ctx : List (String × String)) (k : String) : Option String :=
  (ctx.find? (fun p => p.1 == k)).map (fun p => p.2)

/-- What `format_map` inserts for a field: the dict's value when the key
is present, else `_DefaultFormatDict.__missing__` supplies the verbatim
`\x7bname\x7d` text (`validation/_context.py` lines 15-23). -/
def fieldSubst (ctx : List (String × String)) (f : List Char) : List Char :=
  match lookupCtx ctx (String.mk f) with
  | some v => v.toList
  | none => lbraceChar :: (f ++ [rbraceChar])

/-- Scanner state: plain text; just consumed a left or right brace; or
inside a replacement field with the field characters read so far. -/
inductive ScanMode where
  | text
  | afterL
  | afterR
  | field (acc : List Char)
deriving DecidableEq, Repr

/-- The character scanner behind `str.format_map` with a
`_DefaultFormatDict`, on the modelled fragment (see section comment).
Stray single braces and an unterminated field raise `ValueError`
exactly as in Python; syntax outside the fragment maps to a sentinel
error. -/
def formatMapGo (ctx : List (String × String)) :
    ScanMode → List Char → Except String (List Char)
  | .text, [] => .ok []
  | .text, c :: rest =>
    if c = lbraceChar then formatMapGo ctx .afterL rest
    else if c = rbraceChar then formatMapGo ctx .afterR rest
    else (formatMapGo ctx .text rest).map (fun t => c :: t)
  | .afterL, [] => .error "ValueError: Single left brace encountered in format string"
  | .afterL, c :: rest =>
    if c = lbraceChar then (formatMapGo ctx .text rest).map (fun t => lbraceChar :: t)
    else if c = rbraceChar then .error "unmodelled empty replacement field"
    else formatMapGo ctx (.field [c]) rest
  | .afterR, [] => .error "ValueError: Single right brace encountered in format string"
  | .afterR, c :: rest =>
    if c = rbraceChar then (formatMapGo ctx .text rest).map (fun t => rbraceChar :: t)
    else .error "ValueError: Single right brace encountered in format string"
  | .field _, [] => .error "ValueError: expected closing brace before end of string"
  | .field acc, c :: rest =>
    if c = rbraceChar then
      if simpleField acc then
        (formatMapGo ctx .text rest).map (fun t => fieldSubst ctx acc ++ t)
      else .error "unmodelled format syntax"
    else formatMapGo ctx (.field (acc ++ [c])) rest

/-- `template.format_map(_DefaultFormatDict(context))`
(`validation/_context.py` line 81). -/
def formatMap (tmpl : List Char) (ctx : List (String × String)) :
    Except String (List Char) :=
  formatMapGo ctx .text tmpl

/-- One parsed piece of a message template. -/
inductive Chunk where
  | lit (c : Char)
  | hole (name : String)
deriving DecidableEq, Repr

/-- Parse a template of the modelled fragment into literal characters
and `\x7bname\x7d` replacement fields; `none` when the template is
outside the fragment or malformed.  Same scanner structure as
`formatMapGo`, but independent of any context dict. -/
def parseTemplateGo : ScanMode → List Char → Option (List Chunk)
  | .text, [] => some []
  | .text, c :: rest =>
    if c = lbraceChar then parseTemplateGo .afterL rest
    else if c = rbraceChar then parseTemplateGo .afterR rest
    else (parseTemplateGo .text rest).map (fun t => Chunk.lit c :: t)
  | .afterL, [] => none
  | .afterL, c :: rest =>
    if c = lbraceChar then (parseTemplateGo .text rest).map (fun t => Chunk.lit lbraceChar :: t)
    else if c = rbraceChar then none
    else parseTemplateGo (.field [c]) rest
  | .afterR, [] => none
  | .afterR, c :: rest =>
    if c = rbraceChar then (parseTemplateGo .text rest).map (fun t => Chunk.lit rbraceChar :: t)
    else none
  | .field _, [] => none
  | .field acc, c :: rest =>
    if c = rbraceChar then
      if simpleField acc then
        (parseTemplateGo .text rest).map (fun t => Chunk.hole (String.mk acc) :: t)
      else none
    else parseTemplateGo (.field (acc ++ [c])) rest

/-- Top-level template parse of the modelled fragment. -/
def parseTemplate (tmpl : List Char) : Option (List Chunk) :=
  parseTemplateGo .text tmpl

/-- The claim's rendering of a parsed template: each `\x7bname\x7d`
replaced by the dict's value for `name` when present, left verbatim when
absent; literals kept. -/
def renderChunks (ctx : List (String × String)) : List Chunk → List Char
  | [] => []
  | Chunk.lit c :: rest => c :: renderChunks ctx rest
  | Chunk.hole name :: rest =>
    (match lookupCtx ctx name with
     | some v => v.toList
     | none => lbraceChar :: (name.toList ++ [rbraceChar])) ++ renderChunks ctx rest

/-- `ValidationContext.add_finding` from `validation/_context.py`:
resolve the rule code, render the effective message template with the
context bag (when given), and append the finding.  The `Except` layer
carries a `ValueError` that `format_map` might raise. -/
def add_finding (rule_def : RuleDefinition) (rule_set : String)
    (findings : List Finding) (location : String)
    (context : Option (List (String × String)))
    (rule_code : Option String) : Except String (List Finding) :=
  let code := match rule_code with
    | some c => c
    | none => rule_def.code
  let template := rule_def.effective_message rule_set
  let severity := rule_def.effective_severity rule_set
  match context with
  | some ctxd =>
    (formatMap template.toList ctxd).map (fun msg =>
      findings ++ [{ rule_id := code, severity := severity, rule_set := rule_set
                     message := String.mk msg, location := location
                     context := some ctxd }])
  | none =>
    .ok (findings ++ [{ rule_id := code, severity := severity, rule_set := rule_set
                        message := template, location := location
                        context := none }])

/-- A concrete rule used to exercise defensive rendering: its template
has two placeholders. -/
def c9Rule : RuleDefinition :=
  { code := "XML-050", message := "Unit \x7bunit\x7d uses measure \x7bmeasure\x7d"
    severity := .WARNING, xml := true, csv := false, eba := false, post_conversion := false }

/-- The parse of `c9Rule`'s template. -/
def c9Chunks : List Chunk :=
  [Chunk.lit 'U', Chunk.lit 'n', Chunk.lit 'i', Chunk.lit 't', Chunk.lit ' ',
   Chunk.hole "unit",
   Chunk.lit ' ', Chunk.lit 'u', Chunk.lit 's', Chunk.lit 'e', Chunk.lit 's',
   Chunk.lit ' ', Chunk.lit 'm', Chunk.lit 'e', Chunk.lit 'a', Chunk.lit 's',
   Chunk.lit 'u', Chunk.lit 'r', Chunk.lit 'e', Chunk.lit ' ',
   Chunk.hole "measure"]

/-! ## The public `validate()` aggregation (`validation/__init__.py`, C10)
and the CLI glue (`__main__.py`, `_validate_main`, C2) -/

/-- `defaultdict(list)[code].append(d)`: extend the list bound to `code`
in place, or bind a fresh singleton at the end (first-seen key order). -/
def groupAppend : List (String × List FindingDict) → String → FindingDict →
    List (String × List FindingDict)
  | [], code, d => [(code, [d])]
  | (k, ds) :: rest, code, d =>
    if k == code then (k, ds ++ [d]) :: rest
    else (k, ds) :: groupAppend rest code d

/-- The grouping loop of `validate()` (`validation/__init__.py` lines
50-57), with its two accumulators: ERROR findings go to `errors`,
everything else to `warnings`, keyed by `rule_id`, serialised with
`to_dict()`. -/
def validateGroupsGo (errors warnings : List (String × List FindingDict)) :
    List Finding → List (String × List FindingDict) × List (String × List FindingDict)
  | [] => (errors, warnings)
  | f :: fs =>
    if f.severity == Severity.ERROR then
      validateGroupsGo (groupAppend errors f.rule_id f.to_dict) warnings fs
    else
      validateGroupsGo errors (groupAppend warnings f.rule_id f.to_dict) fs

/-- The grouping `validate()` performs over the run's findings. -/
def validateGroups (findings : List Finding) :
    List (String × List FindingDict) × List (String × List FindingDict) :=
  validateGroupsGo [] [] findings

/-- A Python value, as far as `_validate_main` inspects one. -/
inductive PyVal where
  | pstr (s : String)
  | pnone
  | pdict (entries : List (String × PyVal))
  | plist (xs : List PyVal)
  | pfinding (f : Finding)

/-- The `PyVal` form of a serialised finding dict. -/
def findingDictPy (d : FindingDict) : PyVal :=
  .pdict [("rule_id", .pstr d.rule_id), ("severity", .pstr d.severity),
          ("rule_set", .pstr d.rule_set), ("message", .pstr d.message),
          ("location", .pstr d.location),
          ("context", match d.context with
            | none => .pnone
            | some l => .pdict (l.map (fun p => (p.1, PyVal.pstr p.2))))]

/-- The dict `validate()` returns (`validation/__init__.py` line 59):
`\x7b"errors": dict(errors), "warnings": dict(warnings)\x7d`. -/
def validate_result (findings : List Finding) : PyVal :=
  let groups := validateGroups findings
  .pdict [("errors", .pdict (groups.1.map (fun p => (p.1, PyVal.plist (p.2.map findingDictPy))))),
          ("warnings", .pdict (groups.2.map (fun p => (p.1, PyVal.plist (p.2.map findingDictPy)))))]

/-- Python iteration (`for r in results`): a dict yields its keys, a
list its elements, a string its characters; other values raise
`TypeError`. -/
def pyIterElems : PyVal → Except String (List PyVal)
  | .pdict es => .ok (es.map (fun e => PyVal.pstr e.1))
  | .plist xs => .ok xs
  | .pstr s => .ok (s.toList.map (fun c => PyVal.pstr (String.mk [c])))
  | .pnone => .error "TypeError: NoneType object is not iterable"
  | .pfinding _ => .error "TypeError: ValidationResult object is not iterable"

/-- `r.severity`: only a `ValidationResult` has the attribute. -/
def pyGetSeverity : PyVal → Except String Severity
  | .pfinding f => .ok f.severity
  | _ => .error "AttributeError: object has no attribute severity"

/-- `r.to_dict()`: only a `ValidationResult` has the method. -/
def pyToDict : PyVal → Except String PyVal
  | .pfinding f => .ok (findingDictPy f.to_dict)
  | _ => .error "AttributeError: object has no attribute to_dict"

/-- Python truthiness of the values `_validate_main` tests. -/
def pyTruthy : PyVal → Bool
  | .pdict es => !es.isEmpty
  | .plist xs => !xs.isEmpty
  | .pstr s => !s.isEmpty
  | .pnone => false
  | .pfinding _ => true

/-- `_validate_main` (`__main__.py` lines 144-166) after `validate()`
returned `results`: the `--json` branch builds
`[r.to_dict() for r in results]`; the text branch tests `not results`
and builds the severity comprehensions and the per-finding print loop;
finally `any(r.severity == Severity.ERROR for r in results)` decides
`sys.exit(1)`.  Returns the exit code; an `.error` is an uncaught
exception (only `ValueError` from `validate()` is caught, earlier). -/
def validate_main_tail (results : PyVal) (jsonOutput : Bool) : Except String Nat := do
  if jsonOutput then
    let xs ← pyIterElems results
    let _ ← xs.mapM pyToDict
    pure ()
  else
    if pyTruthy results then
      let xs ← pyIterElems results
      let _ ← xs.mapM pyGetSeverity
      pure ()
    else
      pure ()
  let xs ← pyIterElems results
  let sevs ← xs.mapM pyGetSeverity
  if sevs.any (fun s => s == Severity.ERROR) then pure 1 else pure 0

/-- The observed process exit code: an uncaught exception makes the
interpreter exit with status 1. -/
def validate_main_exit (results : PyVal) (jsonOutput : Bool) : Nat :=
  match validate_main_tail results jsonOutput with
  | .ok n => n
  | .error _ => 1

/-- `dict.get`-style lookup in a group mapping. -/
def lookupGroup (groups : List (String × List FindingDict)) (code : String) :
    Option (List FindingDict) :=
  (groups.find? (fun p => p.1 == code)).map (fun p => p.2)

/-- Append new serialisations to a group's optional entry: no entry is
created for an empty addition. -/
def opAppend (o : Option (List FindingDict)) (l : List FindingDict) :
    Option (List FindingDict) :=
  match l with
  | [] => o
  | _ =>
    match o with
    | none => some l
    | some xs => some (xs ++ l)

/-- Total number of serialised findings across a group mapping. -/
def sumLens (g : List (String × List FindingDict)) : Nat :=
  (g.map (fun p => p.2.length)).sum

/-! ## XML node model and the single-pass facts scan
(`validation/rules/_helpers.py`, `validation/rules/xml_facts.py`, C6) -/

/-- Literal Clark-notation tag builder (lxml uses
`\x7bnamespace-uri\x7dlocal`). -/
def clarkName (ns localPart : String) : String :=
  "\x7b" ++ ns ++ "\x7d" ++ localPart

/-- An lxml element tree node as far as the embedded rules read it: an
element with its tag (Clark notation), attribute map, text and direct
children, or a comment/processing instruction (whose `tag` is not a
string). -/
inductive Node where
  | elem (tag : String) (attrs : List (String × String)) (text : Option String)
      (children : List Node)
  | comment (text : String)

/-- The direct children iterated by `for child in root`. -/
def Node.childNodes : Node → List Node
  | .elem _ _ _ cs => cs
  | .comment _ => []

/-- `elem.get(name)`. -/
def Node.attr : Node → String → Option String
  | .elem _ attrs _ _, k => (attrs.find? (fun p => p.1 == k)).map (fun p => p.2)
  | .comment _, _ => none

/-- `elem.text` (may be `None`). -/
def Node.textOf : Node → Option String
  | .elem _ _ t _ => t
  | .comment t => some t

/-- `xbrli` namespace (`_helpers.py`). -/
def XBRLI_NS : String := "http://www.xbrl.org/2003/instance"

/-- `link` namespace (`_helpers.py`). -/
def LINK_NS : String := "http://www.xbrl.org/2003/linkbase"

/-- `find` namespace (`_helpers.py`). -/
def FIND_NS : String := "http://www.eurofiling.info/xbrl/ext/filing-indicators"

/-- `INFRA_NS` from `_helpers.py`: namespaces of non-fact elements. -/
def INFRA_NS : List String := [XBRLI_NS, LINK_NS, FIND_NS]

/-- The namespace of a Clark-notation tag
(`tag[1 : tag.index("\x7d")]`), `none` when the tag has no namespace
part.  Well-formed lxml tags always close the brace. -/
def clarkNs (tag : String) : Option String :=
  match tag.toList with
  | c :: rest =>
    if c = lbraceChar then some (String.mk (rest.takeWhile (fun d => !(d = rbraceChar))))
    else none
  | [] => none

/-- The local name after the closing brace of a Clark-notation tag. -/
def clarkLocal (tag : String) : String :=
  String.mk (((tag.toList.dropWhile (fun d => !(d = rbraceChar))).drop 1))

/-- `is_fact` from `_helpers.py`: comments are not facts; namespaced
elements are facts iff their namespace is not infrastructure; an
element without a namespace is treated as a fact. -/
def is_fact : Node → Bool
  | .comment _ => false
  | .elem tag _ _ _ =>
    match clarkNs tag with
    | some ns => !(INFRA_NS.contains ns)
    | none => true

/-- `fact_label` from `_helpers.py`: the local name of a namespaced
tag, the tag itself otherwise. -/
def fact_label : Node → String
  | .comment _ => "<comment>"
  | .elem tag _ _ _ =>
    match clarkNs tag with
    | some _ => clarkLocal tag
    | none => tag

/-- Python whitespace as stripped by `str.strip()`. -/
def isPyWs (c : Char) : Bool :=
  c = ' ' || c = Char.ofNat 9 || c = Char.ofNat 10 || c = Char.ofNat 13
    || c = Char.ofNat 11 || c = Char.ofNat 12

/-- `str.strip()`. -/
def pyStrip (s : String) : String :=
  String.mk (((s.toList.dropWhile isPyWs).reverse.dropWhile isPyWs).reverse)

/-- Digit runs with the underscore rule of CPython `int()` literals:
an underscore must sit between two digits. -/
def digitsUS : List Char → Bool
  | [] => false
  | c :: rest => c.isDigit && digitsUSAux rest
where
  digitsUSAux : List Char → Bool
  | [] => true
  | c :: rest =>
    if c = '_' then
      match rest with
      | d :: rest2 => d.isDigit && digitsUSAux rest2
      | [] => false
    else c.isDigit && digitsUSAux rest

/-- Whether CPython `int(value)` succeeds for a string without
surrounding whitespace: an optional sign followed by ASCII digits with
legal underscores.  (Non-ASCII digits are outside the modelled byte
strings.) -/
def pyIntAccepts (value : String) : Bool :=
  match value.toList with
  | '+' :: rest => digitsUS rest
  | '-' :: rest => digitsUS rest
  | l => digitsUS l

/-- `_is_valid_decimals` from `xml_facts.py`: the literal `INF`, or a
string `int()` accepts that equals its own `strip()`. -/
def is_valid_decimals (value : String) : Bool :=
  value == "INF" || (pyIntAccepts value && pyStrip value == value)

/-- `xsi:nil` attribute key (`xml_facts.py`). -/
def XSI_NIL : String := clarkName "http://www.w3.org/2001/XMLSchema-instance" "nil"

/-- `_ScanResult` of `xml_facts.py`: the four lists the single pass
collects. -/
structure FactsScanResult where
  precision_facts : List String
  bad_decimals_facts : List (String × String)
  xsi_nil_facts : List String
  empty_string_facts : List String
deriving DecidableEq, Repr

/-- The empty `_ScanResult()`. -/
def emptyFactsScan : FactsScanResult :=
  { precision_facts := [], bad_decimals_facts := [], xsi_nil_facts := []
    empty_string_facts := [] }

/-- One iteration of the `for child in root` loop of
`xml_facts._scan`. -/
def factsScanStep (r : FactsScanResult) (child : Node) : FactsScanResult :=
  if !(is_fact child) then r
  else
    let label := fact_label child
    let r1 := if (child.attr "precision").isSome then
        { r with precision_facts := r.precision_facts ++ [label] } else r
    let r2 := match child.attr "decimals" with
      | some decimals =>
        if !(is_valid_decimals decimals) then
          { r1 with bad_decimals_facts := r1.bad_decimals_facts ++ [(label, decimals)] }
        else r1
      | none => r1
    let r3 := if (child.attr XSI_NIL).isSome then
        { r2 with xsi_nil_facts := r2.xsi_nil_facts ++ [label] } else r2
    if (child.attr "unitRef").isNone && pyStrip ((child.textOf).getD "") == "" then
      { r3 with empty_string_facts := r3.empty_string_facts ++ [label] }
    else r3

/-- `xml_facts._scan`'s computation over a root (without the cache):
one pass over the root's direct children. -/
def facts_scan (root : Node) : FactsScanResult :=
  root.childNodes.foldl factsScanStep emptyFactsScan

/-! ## The single-slot identity-keyed scan cache (C6)

`xml_facts._scan`, `xml_context._scan` and
`eba_decimals._build_metric_type_map` all guard their computation with
a module-level slot `_last = (key, result)` compared by object identity
(`is`) and overwritten on miss.  Object identities are modelled as
`Nat` ids resolved through a fixed environment; the artefacts are
immutable during a run. -/

/-- One cached call: hit returns the stored result and keeps the slot,
miss computes and overwrites the slot. -/
def memoCall (f : Nat → α) (cache : Option (Nat × α)) (k : Nat) :
    α × Option (Nat × α) :=
  match cache with
  | some (k0, r0) => if k0 == k then (r0, cache) else (f k, some (k, f k))
  | none => (f k, some (k, f k))

/-- A sequence of cached calls threading the single slot. -/
def memoRun (f : Nat → α) : Option (Nat × α) → List Nat → List α
  | _, [] => []
  | cache, k :: ks =>
    let r := memoCall f cache k
    r.1 :: memoRun f r.2 ks

/-! ## EBA decimals rules (`validation/rules/eba_decimals.py`, C7) -/

/-- The behavioural classes of a fact's `@decimals` string under
`_parse_decimals`/`_is_inf` (`eba_decimals.py`): `intLit raw z` stands
for a `raw` that CPython `int(raw.strip())` evaluates to `z` (and whose
`strip().upper()` is not `INF`), `infLit raw` for a `raw` whose
`strip().upper()` equals `INF`, and `malformed raw` for every other
string.  The raw text is kept for message interpolation. -/
inductive DecAttr where
  | intLit (raw : String) (z : Int)
  | infLit (raw : String)
  | malformed (raw : String)
deriving DecidableEq, Repr

/-- The raw attribute text, as interpolated in messages. -/
def DecAttr.raw : DecAttr → String
  | .intLit r _ => r
  | .infLit r => r
  | .malformed r => r

/-- `_parse_decimals` from `eba_decimals.py`: `None` for a missing
attribute, for `INF` (handled separately) and for non-numeric text. -/
def parse_decimals : Option DecAttr → Option Int
  | some (.intLit _ z) => some z
  | _ => none

/-- `_is_inf` from `eba_decimals.py`. -/
def is_inf : Option DecAttr → Bool
  | some (.infLit _) => true
  | _ => false

/-- A fact as the DEC rules read it (`inst.facts` elements): metric
QName, context id, optional unit id, optional `@decimals`. -/
structure FactT where
  metric : Option String
  context : String
  unit : Option String
  decimals : Option DecAttr
deriving DecidableEq, Repr

/-- The parsed instance as the DEC rules read it: facts in document
order and the unit-id → measure-string map. -/
structure XmlInstanceT where
  facts : List FactT
  units : List (String × String)
deriving DecidableEq, Repr

/-- A taxonomy variable as `_build_metric_type_map` reads it. -/
structure VariableT where
  dimensions : List (String × String)
  attributes : Option String
deriving DecidableEq, Repr

/-- A taxonomy table as `_build_metric_type_map` reads it (`vars`
embeds the source's `variables` field, a Lean keyword). -/
structure TableT where
  vars : List VariableT
deriving DecidableEq, Repr

/-- A loaded taxonomy module as the DEC rules read it. -/
structure ModuleT where
  url : String
  tables : List TableT
deriving DecidableEq, Repr

/-- `dict.get(k)`. -/
def dictGet (m : List (String × String)) (k : String) : Option String :=
  (m.find? (fun p => p.1 == k)).map (fun p => p.2)

/-- `dict.get(k, dflt)`. -/
def dictGetD (m : List (String × String)) (k dflt : String) : String :=
  (dictGet m k).getD dflt

/-- `dict[k] = v`: overwrite in place or append. -/
def dictSet : List (String × String) → String → String → List (String × String)
  | [], k, v => [(k, v)]
  | (k0, v0) :: rest, k, v =>
    if k0 == k then (k0, v) :: rest else (k0, v0) :: dictSet rest k v

/-- `_TYPE_MONETARY` (`eba_decimals.py`). -/
def TYPE_MONETARY : String := "$decimalsMonetary"

/-- `_TYPE_PERCENTAGE` (`eba_decimals.py`). -/
def TYPE_PERCENTAGE : String := "$decimalsPercentage"

/-- `_TYPE_INTEGER` (`eba_decimals.py`). -/
def TYPE_INTEGER : String := "$decimalsInteger"

/-- Python truthiness of an optional string (`None` and `""` falsy). -/
def pyTruthyStr : Option String → Bool
  | some s => !s.isEmpty
  | none => false

/-- `_build_metric_type_map`'s computation (without the cache): walk
every table's variables and record `concept → _attributes` whenever
both are truthy; later entries overwrite.  `None` module gives the
empty map. -/
def build_metric_type_map (module? : Option ModuleT) : List (String × String) :=
  match module? with
  | none => []
  | some m =>
    m.tables.foldl
      (fun acc table =>
        table.vars.foldl
          (fun acc v =>
            let concept := dictGet v.dimensions "concept"
            if pyTruthyStr concept && pyTruthyStr v.attributes then
              dictSet acc (concept.getD "") (v.attributes.getD "")
            else acc)
          acc)
      []

/-- Substring containment (`seg in url`). -/
def containsSub : List Char → List Char → Bool
  | [], sub => sub.isEmpty
  | hay@(_ :: t), sub => sub.isPrefixOf hay || containsSub t sub

/-- `seg in url` on strings. -/
def strContains (s sub : String) : Bool :=
  containsSub s.toList sub.toList

/-- `_RELAXED_FW_SEGMENTS` (`eba_decimals.py`): module-URL segments of
the frameworks whose monetary threshold is relaxed. -/
def RELAXED_FW_SEGMENTS : List String :=
  ["/fws/fp/", "/fws/esg/", "/fws/pillar3/", "/fws/rem/"]

/-- `_monetary_threshold` from `eba_decimals.py`: `-6` when the loaded
module's URL contains a relaxed-framework segment, `-4` otherwise
(also when no module is loaded or its URL is `None`/empty). -/
def monetary_threshold (module? : Option ModuleT) : Int :=
  match module? with
  | some m =>
    if RELAXED_FW_SEGMENTS.any (fun seg => strContains m.url seg) then -6 else -4
  | none => -4

/-- `PURE_VALUES` from `_helpers.py`. -/
def PURE_VALUES : List String := ["xbrli:pure", "pure"]

/-- `_infer_type_from_unit` from `eba_decimals.py`: fallback typing
from the unit measure when the metric is not in the module map. -/
def infer_type_from_unit (unit_measure : String) : Option String :=
  if strLower (String.mk (unit_measure.toList.take 8)) == "iso4217:" then some TYPE_MONETARY
  else if PURE_VALUES.contains unit_measure then some TYPE_PERCENTAGE
  else none

/-- `fact.metric or "?"`. -/
def metricOf (f : FactT) : String :=
  match f.metric with
  | some s => if s.isEmpty then "?" else s
  | none => "?"

/-- The metric type the DEC-001/002 loops resolve: the module map wins,
otherwise unit-based inference on `units.get(fact.unit, "")`. -/
def resolved_metric_type (tm units : List (String × String)) (f : FactT) :
    Option String :=
  match dictGet tm (metricOf f) with
  | some t => some t
  | none => infer_type_from_unit (dictGetD units (f.unit.getD "") "")

/-- What a rule body passes to `add_finding`: the location and the
`detail` context value. -/
structure Emission where
  location : String
  detail : String
deriving DecidableEq, Repr

/-- `f"fact:{metric}:context:{fact.context}"`. -/
def factLocation (f : FactT) : String :=
  "fact:" ++ metricOf f ++ ":context:" ++ f.context

/-- The raw `@decimals` text as interpolated (`str(None)` never occurs:
emissions happen only under the non-`None` guard). -/
def rawDecimals (f : FactT) : String :=
  (f.decimals.map DecAttr.raw).getD "None"

/-- The EBA-DEC-001 emission for a violating fact. -/
def monetary_emission (threshold : Int) (f : FactT) : Emission :=
  { location := factLocation f
    detail := "Fact '" ++ metricOf f ++ "' has @decimals=" ++ rawDecimals f
      ++ " which is below the minimum threshold of " ++ toString threshold ++ "." }

/-- The EBA-DEC-001 loop over the facts (`check_monetary_decimals_xml`),
with the type map and threshold precomputed. -/
def monetaryLoop (tm units : List (String × String)) (threshold : Int) :
    List FactT → List Emission
  | [] => []
  | f :: fs =>
    let rest := monetaryLoop tm units threshold fs
    if f.unit.isNone || f.decimals.isNone then rest
    else if !(resolved_metric_type tm units f == some TYPE_MONETARY) then rest
    else
      match parse_decimals f.decimals with
      | some z => if z < threshold then monetary_emission threshold f :: rest else rest
      | none => rest

/-- `check_monetary_decimals_xml` from `eba_decimals.py` (the
`facts is None or units is None` duck-typing guards never fire for a
parsed instance and are not modelled). -/
def check_monetary_decimals_xml (inst? : Option XmlInstanceT)
    (module? : Option ModuleT) : List Emission :=
  match inst? with
  | none => []
  | some inst =>
    monetaryLoop (build_metric_type_map module?) inst.units
      (monetary_threshold module?) inst.facts

/-- The loop guard of EBA-DEC-001 as one predicate. -/
def monetaryHit (tm units : List (String × String)) (threshold : Int)
    (f : FactT) : Bool :=
  f.unit.isSome && f.decimals.isSome
    && (resolved_metric_type tm units f == some TYPE_MONETARY)
    && (match parse_decimals f.decimals with
        | some z => decide (z < threshold)
        | none => false)

/-- The EBA-DEC-002 emission for a violating fact. -/
def percentage_emission (f : FactT) : Emission :=
  { location := factLocation f
    detail := "Fact '" ++ metricOf f ++ "' has @decimals=" ++ rawDecimals f
      ++ " which is below the minimum of 4 for percentage facts." }

/-- The EBA-DEC-002 loop over the facts
(`check_percentage_decimals_xml`). -/
def percentageLoop (tm units : List (String × String)) :
    List FactT → List Emission
  | [] => []
  | f :: fs =>
    let rest := percentageLoop tm units fs
    if f.unit.isNone || f.decimals.isNone then rest
    else if !(resolved_metric_type tm units f == some TYPE_PERCENTAGE) then rest
    else
      match parse_decimals f.decimals with
      | some z => if z < 4 then percentage_emission f :: rest else rest
      | none => rest

/-- `check_percentage_decimals_xml` from `eba_decimals.py`. -/
def check_percentage_decimals_xml (inst? : Option XmlInstanceT)
    (module? : Option ModuleT) : List Emission :=
  match inst? with
  | none => []
  | some inst =>
    percentageLoop (build_metric_type_map module?) inst.units inst.facts

/-- The loop guard of EBA-DEC-002 as one predicate. -/
def percentageHit (tm units : List (String × String)) (f : FactT) : Bool :=
  f.unit.isSome && f.decimals.isSome
    && (resolved_metric_type tm units f == some TYPE_PERCENTAGE)
    && (match parse_decimals f.decimals with
        | some z => decide (z < 4)
        | none => false)

/-- The EBA-DEC-003 emission: the INF variant or the numeric variant. -/
def integer_emission (f : FactT) : Emission :=
  if is_inf f.decimals then
    { location := factLocation f
      detail := "Fact '" ++ metricOf f
        ++ "' has @decimals=INF but integer facts MUST use @decimals=0." }
  else
    { location := factLocation f
      detail := "Fact '" ++ metricOf f ++ "' has @decimals=" ++ rawDecimals f
        ++ " but integer facts MUST use @decimals=0." }

/-- The EBA-DEC-003 loop over the facts (`check_integer_decimals_xml`):
type from the module map only (no unit fallback); `INF` violates, a
parsed integer violates iff it is not `0`. -/
def integerLoop (tm : List (String × String)) : List FactT → List Emission
  | [] => []
  | f :: fs =>
    let rest := integerLoop tm fs
    if f.unit.isNone || f.decimals.isNone then rest
    else if !(dictGet tm (metricOf f) == some TYPE_INTEGER) then rest
    else if is_inf f.decimals then integer_emission f :: rest
    else
      match parse_decimals f.decimals with
      | some z => if !(z == 0) then integer_emission f :: rest else rest
      | none => rest

/-- `check_integer_decimals_xml` from `eba_decimals.py`. -/
def check_integer_decimals_xml (inst? : Option XmlInstanceT)
    (module? : Option ModuleT) : List Emission :=
  match inst? with
  | none => []
  | some inst =>
    integerLoop (build_metric_type_map module?) inst.facts

/-- The loop guard of EBA-DEC-003 as one predicate. -/
def integerHit (tm : List (String × String)) (f : FactT) : Bool :=
  f.unit.isSome && f.decimals.isSome
    && (dictGet tm (metricOf f) == some TYPE_INTEGER)
    && (is_inf f.decimals
        || (match parse_decimals f.decimals with
            | some z => !(z == 0)
            | none => false))

/-! ## XML-002 encoding check (`validation/rules/xml_encoding.py`, C8)

`check_utf8_encoding` scans `ctx.raw_bytes[:200]` with the regex
`<\?xml\s[^?]*encoding\s*=\s*['"]([^'"]+)['"]`, decodes the captured
group with `decode("ascii", errors="replace")` and compares its
`lower()` with `utf-8`.  The regex is embedded as an executable matcher
with Python semantics: leftmost match, greedy `[^?]*` with
backtracking; the remaining pieces (`\s*`, `[^'"]+`, the quote classes)
are deterministic because their character classes are disjoint from
what follows them. -/

/-- A quote character of the regex's `['"]` class. -/
def isQuoteChar (c : Char) : Bool := c = '\'' || c = '"'

/-- Match `encoding\s*=\s*['"]([^'"]+)['"]` at the start of `l`,
returning the captured group. -/
def matchEncodingRest (l : List Char) : Option (List Char) :=
  if "encoding".toList.isPrefixOf l then
    match (l.drop 8).dropWhile isPyWs with
    | '=' :: l2 =>
      match l2.dropWhile isPyWs with
      | q :: l4 =>
        if isQuoteChar q then
          let cap := l4.takeWhile (fun c => !(isQuoteChar c))
          match l4.dropWhile (fun c => !(isQuoteChar c)) with
          | r :: _ => if cap.isEmpty then none else if isQuoteChar r then some cap else none
          | [] => none
        else none
      | [] => none
    | _ => none
  else none

/-- Greedy `[^?]*`: try consuming `j` non-`?` characters, longest
first, backtracking until the rest of the pattern matches. -/
def tryGreedy (tail : List Char) : Nat → Option (List Char)
  | 0 => matchEncodingRest tail
  | j + 1 =>
    match matchEncodingRest (tail.drop (j + 1)) with
    | some cap => some cap
    | none => tryGreedy tail j

/-- Match the whole pattern anchored at the start of `s`. -/
def matchEncodingAt (s : List Char) : Option (List Char) :=
  if "<?xml".toList.isPrefixOf s then
    match s.drop 5 with
    | c :: tail =>
      if isPyWs c then
        tryGreedy tail (tail.takeWhile (fun d => !(d = '?'))).length
      else none
    | [] => none
  else none

/-- `re.search`: the leftmost position where the pattern matches. -/
def searchEncoding : List Char → Option (List Char)
  | [] => matchEncodingAt []
  | s@(_ :: rest) =>
    match matchEncodingAt s with
    | some cap => some cap
    | none => searchEncoding rest

/-- `bytes.decode("ascii", errors="replace")` on one byte. -/
def asciiReplaceChar (c : Char) : Char :=
  if c.toNat ≤ 127 then c else Char.ofNat 0xFFFD

/-- Modelled from the spec: the `registry.json` entry for `XML-002`.
The registry file is not among the sources; §8 scenario 6 fixes the
severity of XML-002 at ERROR (“Expected XML-002 ERROR”), the message
template text is immaterial to the claim. -/
def xml002Rule : RuleDefinition :=
  { code := "XML-002", message := "\x7bdetail\x7d", severity := .ERROR
    xml := true, csv := true, eba := false, post_conversion := true }

/-- `check_utf8_encoding` from `xml_encoding.py`: search the first 200
bytes for the declaration's encoding attribute; no match (no
declaration or no encoding attribute found) passes; a declared encoding
other than `utf-8` (case-insensitive) yields one finding at
`\x7bfile_path\x7d:1` with the rule's effective severity.  The message
is the rendered `\x7bdetail\x7d` template. -/
def check_utf8_encoding (filePath : String) (raw : List Char) : List Finding :=
  match searchEncoding (raw.take 200) with
  | none => []
  | some cap =>
    let declared := String.mk (cap.map asciiReplaceChar)
    if strLower declared == "utf-8" then []
    else
      let detail := "Declared encoding is '" ++ declared ++ "', expected 'utf-8'."
      [{ rule_id := xml002Rule.code
         severity := xml002Rule.effective_severity "xml"
         rule_set := "xml"
         message := detail
         location := filePath ++ ":1"
         context := some [("detail", detail)] }]

/-- An input whose XML declaration is legal but padded so that its
`encoding` attribute starts after byte 200. -/
def c8LateRaw : List Char :=
  ("<?xml version=\"1.0\"" ++ String.mk (List.replicate 200 ' ')
    ++ "encoding=\"iso-8859-1\"?><xbrl/>").toList

/-- A compact declaration with `encoding="iso-8859-1"` within the first
200 bytes. -/
def c8EarlyRaw : List Char :=
  "<?xml version=\"1.0\" encoding=\"iso-8859-1\"?><xbrl/>".toList

/-- The finding `check_utf8_encoding` emits for `c8EarlyRaw`. -/
def c8Finding : Finding :=
  { rule_id := "XML-002", severity := .ERROR, rule_set := "xml"
    message := "Declared encoding is 'iso-8859-1', expected 'utf-8'."
    location := "report.xbrl:1"
    context := some [("detail", "Declared encoding is 'iso-8859-1', expected 'utf-8'.")] }

/-- A concrete monetary fact with `@decimals=-10` for the witness. -/
def c7Fact : FactT :=
  { metric := some "eba_met:mi53", context := "c1", unit := some "u1"
    decimals := some (.intLit "-10" (-10)) }

end Xbridge

namespace Xbridge

/-- C4: on the two reachable rule sets the engine's `select_rules` is the
order-preserving filter by the claim's predicate. -/
theorem select_rules_is_claim_filter (registry : List RuleDefinition) (rule_set : String)
    (eba post_conversion : Bool) (h : rule_set = "xml" ∨ rule_set = "csv") :
    select_rules registry rule_set eba post_conversion =
      registry.filter (claimKeepsRule rule_set eba post_conversion) := by
  induction registry with
  | nil => rfl
  | cons rule rest ih =>
    rcases h with h | h <;> subst h <;>
      simp only [select_rules, claimKeepsRule, List.filter] <;>
      cases hx : rule.xml <;> cases hc : rule.csv <;>
      cases he : rule.eba <;> cases hp : rule.post_conversion <;>
      cases eba <;> cases post_conversion <;>
      simp_all [select_rules, claimKeepsRule]

/-- C4 witness: the theorem applied at a concrete registry. -/
theorem select_rules_is_claim_filter_witness :
    select_rules [cexRuleA, cexRuleB] "xml" true false =
      List.filter (claimKeepsRule "xml" true false) [cexRuleA, cexRuleB] :=
  select_rules_is_claim_filter [cexRuleA, cexRuleB] "xml" true false (Or.inl rfl)

/-- C5: `_detect_format` realises exactly the claim's case analysis —
`.xbrl`/`.xml` give `xml`; a `.zip` gives `csv` iff `reports/report.json`
occurs at any depth, else `xml` iff exactly one root-level `.xbrl`/`.xml`
entry exists; every other case raises, and what it raises is a
`ValueError`. -/
theorem detect_format_matches_claim (suffix zipName : String)
    (content : Option (List String)) :
    formatOutcome (detect_format suffix zipName content) = spec_detect_format suffix content
    ∧ (spec_detect_format suffix content = none →
        raisesValueError (detect_format suffix zipName content)) := by
  unfold detect_format spec_detect_format raisesValueError
  by_cases h1 : strLower suffix = ".xbrl"
  · simp [h1, formatOutcome]
  by_cases h2 : strLower suffix = ".xml"
  · simp [h1, h2, formatOutcome]
  by_cases h3 : strLower suffix = ".zip"
  · simp only [h1, h2, h3]
    cases content with
    | none =>
      exact ⟨rfl, fun _ => ⟨_, rfl⟩⟩
    | some entries =>
      simp only [detect_zip_format, h1, h2]
      by_cases hrep : entries.any (fun e =>
          e == "reports/report.json" || e.endsWith "/reports/report.json")
      · simp [hrep, formatOutcome]
      · by_cases hone : (entries.filter (fun e =>
            ((strLower e).endsWith ".xbrl" || (strLower e).endsWith ".xml")
              && !(e.contains '/'))).length = 1
        · simp [hrep, hone, formatOutcome]
        · by_cases hmany : 1 < (entries.filter (fun e =>
              ((strLower e).endsWith ".xbrl" || (strLower e).endsWith ".xml")
                && !(e.contains '/'))).length
          · refine ⟨by simp [hrep, hone, hmany, formatOutcome], fun _ => ?_⟩
            exact ⟨"ZIP contains several XBRL files; expected exactly one: " ++ zipName,
              by simp [hrep, hone, hmany]⟩
          · refine ⟨by simp [hrep, hone, hmany, formatOutcome], fun _ => ?_⟩
            exact ⟨"ZIP does not contain a recognized XBRL instance or CSV report package: "
                ++ zipName,
              by simp [hrep, hone, hmany]⟩
  · refine ⟨by simp [h1, h2, h3, formatOutcome], fun _ => ?_⟩
    exact ⟨"Unsupported file extension: " ++ suffix, by simp [h1, h2, h3]⟩

/-- C3 counterexample: a selected rule whose implementation raises makes
`run_rules` propagate the exception — the run is dropped (no finding
list is returned at all), so no synthetic INFO finding referencing the
rule code is recorded and the remaining selected rules contribute
nothing. -/
theorem run_rules_exception_propagates_cex :
    run_rules cexImpl [cexRuleA, cexRuleB] = Except.error "RuntimeError: boom"
    ∧ ∀ fs : List Finding, run_rules cexImpl [cexRuleA, cexRuleB] ≠ Except.ok fs := by
  refine ⟨rfl, ?_⟩
  intro fs h
  rw [show run_rules cexImpl [cexRuleA, cexRuleB] = Except.error "RuntimeError: boom" from rfl] at h
  exact Except.noConfusion h

/-- C3 amended: when the implementations of the earlier selected rules
do not raise and the implementation of rule `r` raises `e`, the engine
loop propagates that exception: the run aborts with `e`, no synthetic
finding is recorded and the rules after `r` are not executed. -/
theorem run_rules_first_raise_propagates (impl : String → Option RuleOutcome)
    (pre post : List RuleDefinition) (r : RuleDefinition) (e : String)
    (hpre : ∀ p ∈ pre, ∀ e', impl p.code ≠ some (.raised e'))
    (hr : impl r.code = some (.raised e)) :
    run_rules impl (pre ++ r :: post) = Except.error e := by
  induction pre with
  | nil => simp [run_rules, hr]
  | cons p ps ih =>
    have hp := hpre p (by simp)
    have hih := ih (fun q hq e' => hpre q (by simp [hq]) e')
    cases himpl : impl p.code with
    | none => simpa [run_rules, himpl] using hih
    | some o =>
      cases o with
      | found fs => simp [run_rules, himpl, hih, Except.map]
      | raised e' => exact absurd himpl (hp e')

/-- C3 witness: the amended theorem at a concrete run — one clean rule,
then a raising one. -/
theorem run_rules_first_raise_propagates_witness :
    run_rules cexImpl ([cexRuleB] ++ cexRuleA :: []) = Except.error "RuntimeError: boom" :=
  run_rules_first_raise_propagates cexImpl [cexRuleB] [] cexRuleA "RuntimeError: boom"
    (by
      intro p hp e' hcontra
      simp only [List.mem_singleton] at hp
      subst hp
      simp [cexImpl, cexRuleB] at hcontra)
    (by rfl)

/-- C1: `run_validation` constructs the per-rule `ValidationContext` with
the keyword arguments `xml_root` and `zip_path`, which
`ValidationContext.__init__` does not declare — CPython keyword binding
raises `TypeError`, so the construction never succeeds and rule bodies
can never read `ctx.xml_root` or `ctx.zip_path`.  Dropping exactly those
two keywords makes the binding succeed. -/
theorem validationContext_ctor_rejects_engine_kwargs :
    pythonBindKwargs validationContextInitParams runValidationCtxCallKwargs =
      Except.error "TypeError: __init__() got an unexpected keyword argument xml_root"
    ∧ "xml_root" ∉ validationContextInitParams
    ∧ "zip_path" ∉ validationContextInitParams
    ∧ pythonBindKwargs validationContextInitParams
        (runValidationCtxCallKwargs.filter
          (fun k => !(k == "xml_root") && !(k == "zip_path"))) = Except.ok () := by
  decide

/-- Rendering helper for C9: wherever the template parses in the
modelled fragment, `format_map` with a `_DefaultFormatDict` succeeds and
produces the chunkwise substitution — in any scanner mode. -/
theorem formatMapGo_renders (ctx : List (String × String)) :
    ∀ (mode : ScanMode) (tmpl : List Char) (cs : List Chunk),
      parseTemplateGo mode tmpl = some cs →
      formatMapGo ctx mode tmpl = Except.ok (renderChunks ctx cs) := by
  intro mode tmpl
  have hne : ¬rbraceChar = lbraceChar := by decide
  induction mode, tmpl using parseTemplateGo.induct with
  | case1 =>
    intro cs hp
    simp [parseTemplateGo] at hp
    subst hp
    simp [formatMapGo, renderChunks]
  | case2 rest ih =>
    intro cs hp
    simp only [parseTemplateGo, if_pos rfl] at hp
    simp only [formatMapGo, if_pos rfl]
    exact ih cs hp
  | case3 rest h ih =>
    intro cs hp
    simp only [parseTemplateGo, if_neg hne, if_pos rfl] at hp
    simp only [formatMapGo, if_neg hne, if_pos rfl]
    exact ih cs hp
  | case4 c rest h1 h2 ih =>
    intro cs hp
    simp only [parseTemplateGo, if_neg h1, if_neg h2, Option.map_eq_some'] at hp
    obtain ⟨cs2, hpt, rfl⟩ := hp
    simp [formatMapGo, if_neg h1, if_neg h2, ih cs2 hpt, Except.map, renderChunks]
  | case5 =>
    intro cs hp
    simp [parseTemplateGo] at hp
  | case6 rest ih =>
    intro cs hp
    simp only [parseTemplateGo, if_pos rfl] at hp
    cases hpt : parseTemplateGo ScanMode.text rest with
    | none => rw [hpt] at hp; simp at hp
    | some cs2 =>
      rw [hpt] at hp
      simp at hp
      subst hp
      simp [formatMapGo, ih cs2 hpt, Except.map, renderChunks]
  | case7 rest h =>
    intro cs hp
    simp [parseTemplateGo, hne] at hp
  | case8 c rest h1 h2 ih =>
    intro cs hp
    simp only [parseTemplateGo, if_neg h1, if_neg h2] at hp
    simp only [formatMapGo, if_neg h1, if_neg h2]
    exact ih cs hp
  | case9 =>
    intro cs hp
    simp [parseTemplateGo] at hp
  | case10 rest ih =>
    intro cs hp
    simp only [parseTemplateGo, if_pos rfl] at hp
    cases hpt : parseTemplateGo ScanMode.text rest with
    | none => rw [hpt] at hp; simp at hp
    | some cs2 =>
      rw [hpt] at hp
      simp at hp
      subst hp
      simp [formatMapGo, ih cs2 hpt, Except.map, renderChunks]
  | case11 c rest h =>
    intro cs hp
    simp [parseTemplateGo, h] at hp
  | case12 acc =>
    intro cs hp
    simp [parseTemplateGo] at hp
  | case13 acc rest h ih =>
    intro cs hp
    simp only [parseTemplateGo, if_pos rfl, h, if_true, Option.map_eq_some'] at hp
    obtain ⟨cs2, hpt, rfl⟩ := hp
    simp [formatMapGo, h, ih cs2 hpt, Except.map, renderChunks, fieldSubst, String.toList]
  | case14 acc rest h =>
    intro cs hp
    simp [parseTemplateGo, h] at hp
  | case15 acc c rest h ih =>
    intro cs hp
    simp only [parseTemplateGo, if_neg h] at hp
    simp only [formatMapGo, if_neg h]
    exact ih cs hp

/-- C9: a call to `add_finding` with a context dict never raises — the
appended finding's message is the effective template with every
`\x7bname\x7d` placeholder replaced by the dict's value when the key is
present, and left verbatim when it is absent (the substitution
`renderChunks` performs), whichever placeholders the dict covers. -/
theorem add_finding_defensive_render (rule_def : RuleDefinition) (rule_set : String)
    (findings : List Finding) (location : String) (ctxd : List (String × String))
    (rule_code : Option String) (chunks : List Chunk)
    (h : parseTemplate (rule_def.effective_message rule_set).toList = some chunks) :
    add_finding rule_def rule_set findings location (some ctxd) rule_code =
      Except.ok (findings ++
        [{ rule_id := (match rule_code with
             | some c => c
             | none => rule_def.code)
           severity := rule_def.effective_severity rule_set
           rule_set := rule_set
           message := String.mk (renderChunks ctxd chunks)
           location := location
           context := some ctxd }]) := by
  have hr := formatMapGo_renders ctxd .text
    (rule_def.effective_message rule_set).toList chunks h
  simp only [add_finding, formatMap]
  rw [hr]
  rfl

/-- C9 witness: the theorem at a concrete rule whose dict covers `unit`
but not `measure`; the latter stays verbatim and nothing is raised. -/
theorem add_finding_defensive_render_witness :
    add_finding c9Rule "xml" [] "unit:u1" (some [("unit", "u1")]) none =
      Except.ok [{ rule_id := "XML-050", severity := Severity.WARNING, rule_set := "xml"
                   message := "Unit u1 uses measure \x7bmeasure\x7d", location := "unit:u1"
                   context := some [("unit", "u1")] }] := by
  have h := add_finding_defensive_render c9Rule "xml" [] "unit:u1" [("unit", "u1")] none
    c9Chunks (by decide)
  rw [h]
  decide

/-- C2: `_validate_main` treats the dict `validate()` returns as a list
of findings.  With zero findings the returned dict still has its two
keys, iterating it yields the key strings, and both the text and the
`--json` paths die with `AttributeError` — the process exits 1 and no
JSON array of findings is printed, where the claim requires exit 0.
Had `validate()` returned the (empty) findings list the CLI assumes,
the exit code would have been 0. -/
theorem validate_cli_dict_attribute_error :
    validate_result [] = PyVal.pdict [("errors", PyVal.pdict []), ("warnings", PyVal.pdict [])]
    ∧ validate_main_tail (validate_result []) false =
        Except.error "AttributeError: object has no attribute severity"
    ∧ validate_main_exit (validate_result []) false = 1
    ∧ validate_main_tail (validate_result []) true =
        Except.error "AttributeError: object has no attribute to_dict"
    ∧ validate_main_exit (validate_result []) true = 1
    ∧ validate_main_exit (PyVal.plist []) false = 0 :=
  ⟨rfl, rfl, rfl, rfl, rfl, rfl⟩

/-- Group lookup after a `defaultdict` append: the touched key gains the
new element at the end of its list, every other key is untouched. -/
theorem lookupGroup_groupAppend (g : List (String × List FindingDict))
    (code code' : String) (d : FindingDict) :
    lookupGroup (groupAppend g code d) code' =
      if code' = code then some (((lookupGroup g code).getD []) ++ [d])
      else lookupGroup g code' := by
  induction g with
  | nil =>
    by_cases h : code' = code
    · subst h
      simp [groupAppend, lookupGroup, List.find?]
    · have hb : (code == code') = false :=
        beq_eq_false_iff_ne.mpr (fun hh => h hh.symm)
      simp [groupAppend, lookupGroup, List.find?, hb, h]
  | cons p rest ih =>
    obtain ⟨k, ds⟩ := p
    by_cases hk : k = code
    · subst hk
      by_cases h' : code' = k
      · subst h'
        simp [groupAppend, lookupGroup, List.find?]
      · have hb : (k == code') = false :=
          beq_eq_false_iff_ne.mpr (fun hh => h' hh.symm)
        simp [groupAppend, lookupGroup, List.find?, hb, h']
    · have hb : (k == code) = false := beq_eq_false_iff_ne.mpr hk
      by_cases hk' : k = code'
      · subst hk'
        have hcc : ¬k = code := hk
        simp only [groupAppend, hb, Bool.false_eq_true, if_false]
        simp [lookupGroup, List.find?, hb]
        rw [if_neg hcc]
      · have hb' : (k == code') = false := beq_eq_false_iff_ne.mpr hk'
        have hgl : lookupGroup ((k, ds) :: groupAppend rest code d) code' =
            lookupGroup (groupAppend rest code d) code' := by
          simp [lookupGroup, List.find?, hb']
        have hgr : lookupGroup ((k, ds) :: rest) code' = lookupGroup rest code' := by
          simp [lookupGroup, List.find?, hb']
        have hgc : lookupGroup ((k, ds) :: rest) code = lookupGroup rest code := by
          simp [lookupGroup, List.find?, hb]
        rw [show groupAppend ((k, ds) :: rest) code d = (k, ds) :: groupAppend rest code d from by
          simp [groupAppend, hb]]
        rw [hgl, ih, hgc, hgr]

/-- Appending one element then a tail, as one `opAppend`. -/
theorem opAppend_snoc (o : Option (List FindingDict)) (d : FindingDict)
    (l : List FindingDict) :
    opAppend o (d :: l) = opAppend (some ((o.getD []) ++ [d])) l := by
  cases o <;> cases l <;> simp [opAppend]

/-- One `defaultdict` append adds exactly one serialised finding. -/
theorem sumLens_groupAppend (g : List (String × List FindingDict))
    (code : String) (d : FindingDict) :
    sumLens (groupAppend g code d) = sumLens g + 1 := by
  induction g with
  | nil => simp [groupAppend, sumLens]
  | cons p rest ih =>
    obtain ⟨k, ds⟩ := p
    by_cases hk : k = code <;>
      simp [groupAppend, sumLens, hk, beq_iff_eq] <;>
      simp [sumLens] at ih <;> omega

/-- Invariant of the grouping loop of `validate()`. -/
theorem validateGroupsGo_char (fs : List Finding) :
    ∀ (e0 w0 : List (String × List FindingDict)) (code : String),
      lookupGroup (validateGroupsGo e0 w0 fs).1 code =
        opAppend (lookupGroup e0 code)
          ((fs.filter (fun f => f.severity == Severity.ERROR && f.rule_id == code)).map
            Finding.to_dict)
      ∧ lookupGroup (validateGroupsGo e0 w0 fs).2 code =
        opAppend (lookupGroup w0 code)
          ((fs.filter (fun f => !(f.severity == Severity.ERROR) && f.rule_id == code)).map
            Finding.to_dict)
      ∧ sumLens (validateGroupsGo e0 w0 fs).1 + sumLens (validateGroupsGo e0 w0 fs).2 =
          sumLens e0 + sumLens w0 + fs.length := by
  induction fs with
  | nil => intro e0 w0 code; simp [validateGroupsGo, opAppend]
  | cons f fs ih =>
    intro e0 w0 code
    by_cases hsev : f.severity = Severity.ERROR
    · have hbs : (f.severity == Severity.ERROR) = true := beq_iff_eq.mpr hsev
      have hstep : validateGroupsGo e0 w0 (f :: fs) =
          validateGroupsGo (groupAppend e0 f.rule_id f.to_dict) w0 fs := by
        simp [validateGroupsGo, hbs]
      obtain ⟨ih1, ih2, ih3⟩ := ih (groupAppend e0 f.rule_id f.to_dict) w0 code
      refine ⟨?_, ?_, ?_⟩
      · rw [hstep, ih1, lookupGroup_groupAppend]
        by_cases hc : f.rule_id = code
        · subst hc
          rw [if_pos rfl]
          simp [List.filter, hbs, opAppend_snoc]
        · rw [if_neg (fun h => hc h.symm)]
          have hbc : (f.rule_id == code) = false := beq_eq_false_iff_ne.mpr hc
          simp [List.filter, hbc]
      · rw [hstep, ih2]
        simp [List.filter, hbs]
      · rw [hstep, ih3, sumLens_groupAppend]
        simp
        omega
    · have hbs : (f.severity == Severity.ERROR) = false := beq_eq_false_iff_ne.mpr hsev
      have hstep : validateGroupsGo e0 w0 (f :: fs) =
          validateGroupsGo e0 (groupAppend w0 f.rule_id f.to_dict) fs := by
        simp [validateGroupsGo, hbs]
      obtain ⟨ih1, ih2, ih3⟩ := ih e0 (groupAppend w0 f.rule_id f.to_dict) code
      refine ⟨?_, ?_, ?_⟩
      · rw [hstep, ih1]
        simp [List.filter, hbs]
      · rw [hstep, ih2, lookupGroup_groupAppend]
        by_cases hc : f.rule_id = code
        · subst hc
          rw [if_pos rfl]
          simp [List.filter, hbs, opAppend_snoc]
        · rw [if_neg (fun h => hc h.symm)]
          have hbc : (f.rule_id == code) = false := beq_eq_false_iff_ne.mpr hc
          simp [List.filter, hbc]
      · rw [hstep, ih3, sumLens_groupAppend]
        simp
        omega

/-- C10: `validate()` returns a dict with exactly the keys `errors` and
`warnings`; under `errors` each rule code maps to the serialisations of
exactly the ERROR findings with that code (in run order), under
`warnings` to those of the non-ERROR (WARNING or INFO) findings; the
two group totals add up to the number of findings, so every finding
lands in exactly one group. -/
theorem validate_result_partitions (findings : List Finding) :
    (∃ e w, validate_result findings =
        PyVal.pdict [("errors", PyVal.pdict e), ("warnings", PyVal.pdict w)])
    ∧ (∀ code, lookupGroup (validateGroups findings).1 code =
        opAppend none
          ((findings.filter (fun f => f.severity == Severity.ERROR && f.rule_id == code)).map
            Finding.to_dict))
    ∧ (∀ code, lookupGroup (validateGroups findings).2 code =
        opAppend none
          ((findings.filter (fun f => !(f.severity == Severity.ERROR) && f.rule_id == code)).map
            Finding.to_dict))
    ∧ sumLens (validateGroups findings).1 + sumLens (validateGroups findings).2 =
        findings.length
    ∧ (∀ f : Finding, (f.severity == Severity.ERROR) = false →
        f.to_dict.severity = "WARNING" ∨ f.to_dict.severity = "INFO") := by
  refine ⟨⟨_, _, rfl⟩, ?_, ?_, ?_, ?_⟩
  · intro code
    have h := (validateGroupsGo_char findings [] [] code).1
    simpa [validateGroups, lookupGroup] using h
  · intro code
    have h := (validateGroupsGo_char findings [] [] code).2.1
    simpa [validateGroups, lookupGroup] using h
  · have h := (validateGroupsGo_char findings [] [] "").2.2
    simpa [validateGroups, sumLens] using h
  · intro f hf
    cases hs : f.severity with
    | ERROR => rw [hs] at hf; simp at hf
    | WARNING => left; simp [Finding.to_dict, hs, Severity.value]
    | INFO => right; simp [Finding.to_dict, hs, Severity.value]

/-- C10 witness: the partition theorem at a one-warning run. -/
theorem validate_result_partitions_witness :
    lookupGroup (validateGroups [c10Finding]).2 "XML-066" =
      opAppend none
        (([c10Finding].filter
            (fun f => !(f.severity == Severity.ERROR) && f.rule_id == "XML-066")).map
          Finding.to_dict)
    ∧ (c10Finding.to_dict.severity = "WARNING" ∨ c10Finding.to_dict.severity = "INFO") :=
  ⟨(validate_result_partitions [c10Finding]).2.2.1 "XML-066",
   (validate_result_partitions [c10Finding]).2.2.2.2 c10Finding (by decide)⟩


/-- A coherent cache slot (it stores the computation of its key) makes
every cached call agree with direct recomputation. -/
theorem memoRun_coherent {α : Type} (f : Nat → α) :
    ∀ (ks : List Nat) (cache : Option (Nat × α)),
      (∀ k r, cache = some (k, r) → r = f k) →
      memoRun f cache ks = ks.map f := by
  intro ks
  induction ks with
  | nil => intro cache _; rfl
  | cons k ks ih =>
    intro cache h
    cases cache with
    | none =>
      simp only [memoRun, memoCall, List.map]
      rw [ih (some (k, f k)) (fun k' r' hh => by
        injection hh with hh
        injection hh with h1 h2
        rw [← h2, ← h1])]
    | some kr =>
      obtain ⟨k0, r0⟩ := kr
      by_cases hk : k0 = k
      · subst hk
        have hr0 : r0 = f k0 := h k0 r0 rfl
        simp only [memoRun, memoCall, beq_self_eq_true, if_pos, List.map]
        rw [ih (some (k0, r0)) h, hr0]
      · have hb : (k0 == k) = false := beq_eq_false_iff_ne.mpr hk
        simp only [memoRun, memoCall, hb, Bool.false_eq_true, if_false, List.map]
        rw [ih (some (k, f k)) (fun k' r' hh => by
          injection hh with hh
          injection hh with h1 h2
          rw [← h2, ← h1])]

/-- C6: cache invariance — running the single-slot identity-keyed scan
cache over any sequence of roots returns exactly the uncached
recomputation, for the facts scan and for the metric-type map; hence
the findings of every rule body consuming these scans coincide with
and without the cache. -/
theorem scan_cache_invariance :
    (∀ (env : Nat → Node) (roots : List Nat),
        memoRun (fun i => facts_scan (env i)) none roots =
          roots.map (fun i => facts_scan (env i)))
    ∧ (∀ (envm : Nat → Option ModuleT) (mods : List Nat),
        memoRun (fun i => build_metric_type_map (envm i)) none mods =
          mods.map (fun i => build_metric_type_map (envm i))) :=
  ⟨fun env roots => memoRun_coherent _ roots none (fun _ _ hh => Option.noConfusion hh),
   fun envm mods => memoRun_coherent _ mods none (fun _ _ hh => Option.noConfusion hh)⟩

/-- The EBA-DEC-001 loop is the filter/map by its guard. -/
theorem monetaryLoop_filter (tm units : List (String × String)) (thr : Int)
    (fs : List FactT) :
    monetaryLoop tm units thr fs =
      (fs.filter (monetaryHit tm units thr)).map (monetary_emission thr) := by
  induction fs with
  | nil => rfl
  | cons f fs ih =>
    simp only [monetaryLoop, ih]
    rcases hu : f.unit with _ | u
    · simp [List.filter, monetaryHit, hu]
    · rcases hd : f.decimals with _ | d
      · simp [List.filter, monetaryHit, hu, hd]
      · by_cases hres : (resolved_metric_type tm units f == some TYPE_MONETARY) = true
        · rcases hpd : parse_decimals (some d) with _ | z
          · rcases d with ⟨raw, z⟩ | raw | raw <;> simp_all [List.filter, monetaryHit, parse_decimals]
          · by_cases hz : z < thr <;>
              simp [List.filter, monetaryHit, hu, hd, hres, hpd, hz]
        · simp [List.filter, monetaryHit, hu, hd, hres]

/-- The EBA-DEC-002 loop is the filter/map by its guard. -/
theorem percentageLoop_filter (tm units : List (String × String))
    (fs : List FactT) :
    percentageLoop tm units fs =
      (fs.filter (percentageHit tm units)).map percentage_emission := by
  induction fs with
  | nil => rfl
  | cons f fs ih =>
    simp only [percentageLoop, ih]
    rcases hu : f.unit with _ | u
    · simp [List.filter, percentageHit, hu]
    · rcases hd : f.decimals with _ | d
      · simp [List.filter, percentageHit, hu, hd]
      · by_cases hres : (resolved_metric_type tm units f == some TYPE_PERCENTAGE) = true
        · rcases hpd : parse_decimals (some d) with _ | z
          · rcases d with ⟨raw, z⟩ | raw | raw <;> simp_all [List.filter, percentageHit, parse_decimals]
          · by_cases hz : z < 4 <;>
              simp [List.filter, percentageHit, hu, hd, hres, hpd, hz]
        · simp [List.filter, percentageHit, hu, hd, hres]

/-- The EBA-DEC-003 loop is the filter/map by its guard. -/
theorem integerLoop_filter (tm : List (String × String)) (fs : List FactT) :
    integerLoop tm fs = (fs.filter (integerHit tm)).map integer_emission := by
  induction fs with
  | nil => rfl
  | cons f fs ih =>
    simp only [integerLoop, ih]
    rcases hu : f.unit with _ | u
    · simp [List.filter, integerHit, hu]
    · rcases hd : f.decimals with _ | d
      · simp [List.filter, integerHit, hu, hd]
      · by_cases hres : (dictGet tm (metricOf f) == some TYPE_INTEGER) = true
        · rcases d with ⟨raw, z⟩ | raw | raw
          · by_cases hz : z = 0
            · simp [List.filter, integerHit, hu, hd, hres, parse_decimals, is_inf, hz]
            · have hbz : (z == 0) = false := beq_eq_false_iff_ne.mpr hz
              simp [List.filter, integerHit, hu, hd, hres, parse_decimals, is_inf, hz, hbz]
          · simp [List.filter, integerHit, hu, hd, hres, is_inf]
          · simp [List.filter, integerHit, hu, hd, hres, is_inf, parse_decimals]
        · simp [List.filter, integerHit, hu, hd, hres]

/-- C7: the three decimals rules emit exactly by their guards; for a
monetary fact with integer `@decimals` the guard holds iff the value is
below the threshold, which is `-6` exactly when the loaded module's URL
contains one of the FP/ESG/Pillar3/REM segments and `-4` otherwise
(also without a module); for a percentage fact iff the value is below
`4`; for an integer-typed fact iff the value is not `0`, with `INF`
always a violation. -/
theorem eba_decimals_thresholds :
    (∀ (inst : XmlInstanceT) (module? : Option ModuleT),
        check_monetary_decimals_xml (some inst) module? =
          (inst.facts.filter (monetaryHit (build_metric_type_map module?) inst.units
              (monetary_threshold module?))).map
            (monetary_emission (monetary_threshold module?))
      ∧ check_percentage_decimals_xml (some inst) module? =
          (inst.facts.filter (percentageHit (build_metric_type_map module?) inst.units)).map
            percentage_emission
      ∧ check_integer_decimals_xml (some inst) module? =
          (inst.facts.filter (integerHit (build_metric_type_map module?))).map
            integer_emission)
    ∧ (∀ (tm units : List (String × String)) (thr : Int) (f : FactT) (raw : String) (z : Int),
        f.unit.isSome = true →
        resolved_metric_type tm units f = some TYPE_MONETARY →
        f.decimals = some (.intLit raw z) →
        (monetaryHit tm units thr f = true ↔ z < thr))
    ∧ (∀ (tm units : List (String × String)) (f : FactT) (raw : String) (z : Int),
        f.unit.isSome = true →
        resolved_metric_type tm units f = some TYPE_PERCENTAGE →
        f.decimals = some (.intLit raw z) →
        (percentageHit tm units f = true ↔ z < 4))
    ∧ (∀ (tm : List (String × String)) (f : FactT) (raw : String) (z : Int),
        f.unit.isSome = true →
        dictGet tm (metricOf f) = some TYPE_INTEGER →
        f.decimals = some (.intLit raw z) →
        (integerHit tm f = true ↔ ¬(z = 0)))
    ∧ (∀ (tm : List (String × String)) (f : FactT) (raw : String),
        f.unit.isSome = true →
        dictGet tm (metricOf f) = some TYPE_INTEGER →
        f.decimals = some (.infLit raw) →
        integerHit tm f = true)
    ∧ (∀ m : ModuleT,
        (monetary_threshold (some m) = -6 ↔
          RELAXED_FW_SEGMENTS.any (fun seg => strContains m.url seg) = true)
        ∧ (monetary_threshold (some m) = -4 ∨ monetary_threshold (some m) = -6))
    ∧ monetary_threshold none = -4 := by
  refine ⟨?_, ?_, ?_, ?_, ?_, ?_, rfl⟩
  · intro inst module?
    exact ⟨monetaryLoop_filter _ _ _ _, percentageLoop_filter _ _ _, integerLoop_filter _ _⟩
  · intro tm units thr f raw z hu hres hd
    simp [monetaryHit, hu, hd, hres, parse_decimals]
  · intro tm units f raw z hu hres hd
    simp [percentageHit, hu, hd, hres, parse_decimals]
  · intro tm f raw z hu hres hd
    simp [integerHit, hu, hd, hres, parse_decimals, is_inf]
  · intro tm f raw hu hres hd
    simp [integerHit, hu, hd, hres, is_inf]
  · intro m
    constructor
    · by_cases hany : RELAXED_FW_SEGMENTS.any (fun seg => strContains m.url seg) = true <;>
        simp [monetary_threshold, hany]
    · by_cases hany : RELAXED_FW_SEGMENTS.any (fun seg => strContains m.url seg) = true <;>
        simp [monetary_threshold, hany]

/-- C7 witness: the monetary iff at a concrete fact typed monetary via
the unit fallback, with `@decimals=-10` against threshold `-4`. -/
theorem eba_decimals_thresholds_witness :
    monetaryHit [] [("u1", "iso4217:EUR")] (-4) c7Fact = true ↔ ((-10 : Int) < -4) :=
  eba_decimals_thresholds.2.1 [] [("u1", "iso4217:EUR")] (-4) c7Fact "-10" (-10)
    (by decide) (by decide) (by decide)


set_option maxRecDepth 100000 in
/-- C8 counterexample: the input `c8LateRaw` carries an XML declaration
with `encoding="iso-8859-1"` — the very regex the rule uses finds it on
the unsliced input — yet `check_utf8_encoding` emits no finding,
because the rule only scans the first 200 bytes.  The claim, as stated,
requires an ERROR finding here. -/
theorem encoding_check_misses_late_declaration :
    searchEncoding c8LateRaw = some ("iso-8859-1".toList)
    ∧ check_utf8_encoding "report.xbrl" c8LateRaw = [] := by
  constructor
  · decide
  · decide

/-- C8 amended: for an input whose declaration's encoding attribute is
matched by the rule's scan of the first 200 bytes, an XML-002 finding
with the rule's severity (ERROR) at location `file_path:1` is emitted
iff the declared encoding is not `utf-8` case-insensitively; when the
scan of the first 200 bytes finds no encoding attribute (in particular
when the declaration is absent, carries no encoding attribute, or sits
beyond the first 200 bytes), no finding is emitted. -/
theorem encoding_check_spec (filePath : String) (raw : List Char) :
    (∀ f ∈ check_utf8_encoding filePath raw,
        f.severity = Severity.ERROR ∧ f.location = filePath ++ ":1" ∧ f.rule_id = "XML-002")
    ∧ (check_utf8_encoding filePath raw ≠ [] ↔
        ∃ cap, searchEncoding (raw.take 200) = some cap
          ∧ strLower (String.mk (cap.map asciiReplaceChar)) ≠ "utf-8")
    ∧ (searchEncoding (raw.take 200) = none → check_utf8_encoding filePath raw = []) := by
  cases hs : searchEncoding (raw.take 200) with
  | none =>
    refine ⟨?_, ?_, fun _ => ?_⟩
    · intro f hf
      simp [check_utf8_encoding, hs] at hf
    · simp [check_utf8_encoding, hs]
    · simp [check_utf8_encoding, hs]
  | some cap =>
    by_cases hok : strLower (String.mk (cap.map asciiReplaceChar)) = "utf-8"
    · refine ⟨?_, ?_, fun hcontra => ?_⟩
      · intro f hf
        simp [check_utf8_encoding, hs, hok] at hf
      · simp [check_utf8_encoding, hs, hok]
      · cases hcontra
    · have hbok : (strLower (String.mk (cap.map asciiReplaceChar)) == "utf-8") = false :=
        beq_eq_false_iff_ne.mpr hok
      refine ⟨?_, ?_, fun hcontra => ?_⟩
      · intro f hf
        simp [check_utf8_encoding, hs, hbok] at hf
        subst hf
        exact ⟨rfl, rfl, rfl⟩
      · simp only [check_utf8_encoding, hs, hbok, Bool.false_eq_true, if_false]
        constructor
        · intro _
          exact ⟨cap, rfl, hok⟩
        · intro _ h
          simp at h
      · cases hcontra
  
/-- C8 witness: the amended theorem at a compact `iso-8859-1`
declaration — the emitted finding carries severity ERROR, location
`report.xbrl:1` and rule id XML-002. -/
theorem encoding_check_spec_witness :
    c8Finding.severity = Severity.ERROR ∧ c8Finding.location = "report.xbrl" ++ ":1"
      ∧ c8Finding.rule_id = "XML-002" :=
  (encoding_check_spec "report.xbrl" c8EarlyRaw).1 c8Finding (by decide)

end Xbridge
